import Mathlib

/-
Verification of the xtranslator FFI boundary core against its specification.

The Rust source is shallowly embedded:
* raw pointers that may be null become `Option`;
* `anyhow::Result<T>` becomes `Except String T`;
* a Rust panic reachable from the modelled code (`CString::new(..).unwrap()`
  on a string holding an interior NUL byte) is modelled by an `Option` result
  where `none` marks the panic;
* C strings are modelled as Lean `String`s (always valid UTF-8); where the
  source has an explicit UTF-8-failure branch for bytes received from the
  other side of the boundary, the model keeps a boolean flag for it.
-/

/-! ## Domain model (src/lib/src/lib.rs) -/

/-- `TranslateResult` (lib.rs 46-50): two optional text fields. -/
structure TranslateResult where
  reasoning : Option String
  content : Option String
deriving DecidableEq, Repr

/-- `TranslateStreamChunk` (lib.rs 52-57): tagged stream chunk. -/
inductive TranslateStreamChunk where
  | Start
  | Delta (result : TranslateResult)
  | End
deriving DecidableEq, Repr

/-! ## Debug formatting of strings

`unwrap_handle_result` surfaces the envelope's error text through
`anyhow!("result's error: {:?}", ..)`; the `{:?}` (Debug) rendering of a
Rust string quotes it and escapes each character per `char::escape_debug`
(with grapheme-extended escaping, as the `str` Debug impl requests).
-/

/-- One character of the Debug rendering Rust applies to the contents of a
`str` (`char::escape_debug` with `escape_grapheme_extended` set, double
quote escaped, single quote kept): NUL, tab, CR, LF, backslash and double
quote get a two-character backslash escape; a grapheme-extended or
non-printable character gets a `\u{...}` escape; every other character is
printed unchanged. Which characters beyond ASCII count as
grapheme-extended (e.g. U+0301) or non-printable (e.g. the C1 controls
U+0080-U+009F) is defined by Unicode tables this model does not carry;
the model therefore `\u`-escapes every non-ASCII character, along with
every ASCII control character and DEL, and keeps a character unchanged
only for printable ASCII other than backslash and double quote — exactly
the characters Rust is guaranteed to print unchanged. The model's
identity set is thus a subset of Rust's, so `escapeDebug m = m` certifies
that the program, too, surfaces `m` unaltered. -/
def escapeChar (c : Char) : List Char :=
  if c = '\\' then ['\\', '\\']
  else if c = '\x22' then ['\\', '\x22']
  else if c = '\n' then ['\\', 'n']
  else if c = '\r' then ['\\', 'r']
  else if c = '\t' then ['\\', 't']
  else if c = '\x00' then ['\\', '0']
  else if 32 ≤ c.val ∧ c.val < 127 then [c]
  else '\\' :: 'u' :: '\x7b' :: (Nat.toDigits 16 c.val.toNat ++ ['\x7d'])

/-- The `str`-contents Debug escaping applied to every character of a
string. -/
def escapeDebug (s : String) : String :=
  String.mk (List.flatten (s.data.map escapeChar))

/-- The Debug (`{:?}`) rendering of a Rust string: quotes around the
escaped body. -/
def debugQuote (s : String) : String :=
  "\x22" ++ escapeDebug s ++ "\x22"

/-- Model of `CString::new`: fails (returns `none`) exactly when the string
holds an interior NUL byte. -/
def cstringNew (s : String) : Option String :=
  if s.data.contains '\x00' then none else some s

/-! ## Substring occurrence (used to state "message contains m") -/

/-- `leadsWith n h` holds when `n` is an initial segment of `h`. -/
def leadsWith : List Char → List Char → Bool
  | [], _ => true
  | _ :: _, [] => false
  | a :: as, b :: bs => a == b && leadsWith as bs

/-- `occursIn n h` holds when `n` occurs contiguously somewhere in `h`. -/
def occursIn (n : List Char) : List Char → Bool
  | [] => leadsWith n []
  | b :: bs => leadsWith n (b :: bs) || occursIn n bs

/-- `strContains needle hay`: `needle` occurs contiguously in `hay`. -/
def strContains (needle hay : String) : Bool :=
  occursIn needle.data hay.data

/-! ## Result envelope (src/lib/src/ffi.rs 25-76) -/

/-- `FfiResult<T>` (ffi.rs 26-29): a success pointer and an error C-string
pointer; each pointer is modelled as an `Option`. -/
structure FfiResult (T : Type) where
  ptr : Option T
  err : Option String
deriving DecidableEq, Repr

/-- `impl Into<FfiResult<T>> for Result<T>` (ffi.rs 41-58).
`Ok(x)` boxes the payload and leaves the error side null; `Err(e)` leaves
the payload null and stores `CString::new(format!("{:?}", e)).unwrap()`.
The Debug rendering of an `anyhow` error built from a plain message is that
message itself; the `.unwrap()` panics when the message holds an interior
NUL byte, modelled by the `none` result. -/
def resultIntoFfi {T : Type} (r : Except String T) : Option (FfiResult T) :=
  match r with
  | .ok x => some { ptr := some x, err := none }
  | .error e => (cstringNew e).map (fun s => { ptr := none, err := some s })

/-- `FfiResultExt::to_ptr` (ffi.rs 35-39): `Box::into_raw(Box::new(self.into()))`.
The returned pointer itself is never null; only the inner conversion can
abort (interior NUL in the error text). -/
def toPtr {T : Type} (r : Except String T) : Option (FfiResult T) :=
  resultIntoFfi r

/-- `unwrap_handle_result` (ffi.rs 60-76): a null envelope pointer is an
error; a populated error side is surfaced as
`result's error: {:?}` of the (lossy-decoded) message; a null payload with
a null error is an error; otherwise the payload is returned. -/
def unwrap_handle_result {T : Type} (result : Option (FfiResult T)) : Except String T :=
  match result with
  | none => .error "result is null"
  | some r =>
    match r.err with
    | some e => .error ("result\x27s error: " ++ debugQuote e)
    | none =>
      match r.ptr with
      | none => .error "result obj is null"
      | some p => .ok p

/-! ## Wire form of results and stream chunks (ffi.rs 78-213) -/

/-- `TranslateResultFFI` (ffi.rs 78-82): two C-string pointers, each
possibly null. -/
structure TranslateResultFFI where
  reasoning : Option String
  content : Option String
deriving DecidableEq, Repr

/-- `TranslateResult::from_ffi` (ffi.rs 109-128): a null pointer is an
error; otherwise each non-null field is decoded (the model's strings are
always valid UTF-8, so `into_string` cannot fail here). -/
def TranslateResult.from_ffi (result : Option TranslateResultFFI) : Except String TranslateResult :=
  match result with
  | none => .error "null pointer received from ffi"
  | some r => .ok { reasoning := r.reasoning, content := r.content }

/-- `TranslateStreamChunkTag` (ffi.rs 155-160). -/
inductive TranslateStreamChunkTag where
  | Start
  | Delta
  | End
deriving DecidableEq, Repr

/-- `TranslateStreamChunkFFI` (ffi.rs 162-172): the tag plus the union's
`delta` pointer, which is meaningful only for `Delta` and may be null. -/
structure TranslateStreamChunkFFI where
  tag : TranslateStreamChunkTag
  delta : Option TranslateResultFFI
deriving DecidableEq, Repr

/-- `TranslateStreamChunk::from_ffi` (ffi.rs 196-213): a null chunk pointer
is an error; `Start`/`End` decode to themselves; `Delta` decodes its
payload through `TranslateResult::from_ffi` (so a null payload pointer is
an error). -/
def TranslateStreamChunk.from_ffi (result : Option TranslateStreamChunkFFI) :
    Except String TranslateStreamChunk :=
  match result with
  | none => .error "null pointer received from ffi"
  | some r =>
    match r.tag with
    | .Start => .ok .Start
    | .Delta =>
      match TranslateResult.from_ffi r.delta with
      | .ok res => .ok (.Delta res)
      | .error e => .error e
    | .End => .ok .End

/-! ## Proxy-side language query (src/lib/src/ffi_proxy.rs 119-129)

The dynamically loaded `is_supported_input_language` entry point is
abstracted as the function `boundary` from the marshalled language text to
the envelope pointer it returns; `symbolOk` records whether the
`lib.get(b"is_supported_input_language")` symbol lookup succeeds. -/

/-- `ProxyTranslator::is_supported_input_language` (ffi_proxy.rs 119-129):
resolve the symbol, marshal the language tag through `CString::new` (the
`?` propagates a NUL-byte failure), call the boundary, unwrap the
envelope, and compare the boxed sentinel with `0i8`. -/
def ProxyTranslator.is_supported_input_language (symbolOk : Bool) (lang : String)
    (boundary : String → Option (FfiResult Int)) : Except String Bool :=
  if !symbolOk then .error "symbol is_supported_input_language not found"
  else
    match cstringNew lang with
    | none => .error "nul byte in string"
    | some langC =>
      match unwrap_handle_result (boundary langC) with
      | .error e => .error e
      | .ok b => .ok (b == 0)

/-! ## Generated boundary entry point (src/macros/src/lib.rs 150-185)

`build_ffi!` emits `is_supported_input_language` bound to a concrete
backend. `lang` is the incoming C-string pointer (`none` models a null
pointer), `langUtf8` records whether `CStr::to_str` succeeds,
`translatorNull` whether the handle pointer is null, and `backend` is the
concrete implementation's fallible predicate. -/

/-- Generated `is_supported_input_language` (macros lib.rs 150-185):
null/invalid inputs produce error envelopes; a backend `Ok(true)` becomes
the sentinel `0`, `Ok(false)` the sentinel `1`, and a backend error
becomes an error envelope. -/
def Generated.is_supported_input_language (lang : Option String) (langUtf8 : Bool)
    (translatorNull : Bool) (backend : String → Except String Bool) :
    Option (FfiResult Int) :=
  match lang with
  | none => toPtr (Except.error "Null pointer received")
  | some l =>
    if !langUtf8 then toPtr (Except.error "Invalid UTF-8")
    else if translatorNull then toPtr (Except.error "Null pointer received")
    else
      match backend l with
      | .ok true => toPtr (Except.ok 0)
      | .ok false => toPtr (Except.ok 1)
      | .error e => toPtr (Except.error e)

/-! ## Proxy-side streaming translate (src/lib/src/ffi_proxy.rs 152-170)

The backend invokes the proxy's boxed closure once per wire chunk; the
call's own return value is the envelope of `call_translate_stream`. The
sequence of callback invocations is modelled as the list `wire` of chunk
pointers, in invocation order. -/

/-- The boxed forwarding closure (ffi_proxy.rs 155-159): decode the wire
chunk; on success forward it to the caller's channel
(`sender.blocking_send`), on a decode failure do nothing. -/
def proxy_forward_chunk (x : Option TranslateStreamChunkFFI) : Option TranslateStreamChunk :=
  match TranslateStreamChunk.from_ffi x with
  | .ok chunk => some chunk
  | .error _ => none

/-- `ProxyTranslator::translate_stream` (ffi_proxy.rs 152-170), observed as
the pair of (chunks forwarded to the caller's channel, final result).
The forwarded chunks are the decodable ones, in invocation order; the
result comes solely from unwrapping the returned envelope `ret`. -/
def ProxyTranslator.translate_stream (wire : List (Option TranslateStreamChunkFFI))
    (ret : Option (FfiResult Int)) : List TranslateStreamChunk × Except String Unit :=
  (wire.filterMap proxy_forward_chunk,
   match unwrap_handle_result ret with
   | .ok _ => .ok ()
   | .error e => .error e)

/-! ## Plugin discovery (src/lib/src/ffi_proxy.rs 183-269) -/

/-- One filesystem entry seen by the `WalkDir` enumeration, with the
outcome of each fallible step on it:
`isFile` is `path.is_file()`; `extOk` is "the extension equals the
platform dynamic-library suffix (case-normalized on Windows)"; `pathUtf8`
is `path.to_str().is_some()`; `openOk` is `Library::new` succeeding;
`symbolOk` is the `get_plugin_name` symbol resolving; `nameResult` is the
string returned by `get_plugin_name` (`none` models a null pointer). -/
structure FileEntry where
  path : String
  isFile : Bool
  extOk : Bool
  pathUtf8 : Bool
  openOk : Bool
  symbolOk : Bool
  nameResult : Option String
deriving DecidableEq, Repr

/-- The candidate-collection loop (ffi_proxy.rs 215-242): keep files whose
extension matches and whose path converts to UTF-8. -/
def candidates (entries : List FileEntry) : List FileEntry :=
  entries.filter (fun e => e.isFile && e.extOk && e.pathUtf8)

/-- The registry is a name-to-path map; `HashMap::insert` is modelled on an
association list: replace the value of an existing key, else append. -/
def mapInsert (m : List (String × String)) (k v : String) : List (String × String) :=
  match m with
  | [] => [(k, v)]
  | (k0, v0) :: rest => if k0 == k then (k, v) :: rest else (k0, v0) :: mapInsert rest k v

/-- `HashMap` lookup on the association-list model. -/
def mapLookup (m : List (String × String)) (k : String) : Option String :=
  match m with
  | [] => none
  | (k0, v0) :: rest => if k0 == k then some v0 else mapLookup rest k

/-- The keys of the association-list registry. -/
def mapKeys (m : List (String × String)) : List String :=
  m.map (fun p => p.1)

/-- Whether an `Except` is an error (Rust `Result::is_err`). -/
def exceptIsErr {T : Type} (r : Except String T) : Bool :=
  match r with
  | .error _ => true
  | .ok _ => false

/-- The body of the per-library loop (ffi_proxy.rs 245-265): each fallible
step is first tested with `is_err()` and skipped with `continue`; the
subsequent `?` unwraps (lines 250 and 256) are therefore only reached on
success, but are kept in the model as genuine monadic binds. A null name
pointer is also skipped. A successfully named library is inserted into
the map (overwriting any earlier entry for that name). -/
def loadStep (map : List (String × String)) (e : FileEntry) :
    Except String (List (String × String)) := do
  let libraryResult : Except String Unit :=
    if e.openOk then .ok () else .error "library open failed"
  if exceptIsErr libraryResult then
    return map
  let _ ← libraryResult
  let getNameResult : Except String Unit :=
    if e.symbolOk then .ok () else .error "symbol get_plugin_name not found"
  if exceptIsErr getNameResult then
    return map
  let _ ← getNameResult
  match e.nameResult with
  | none => return map
  | some name => return mapInsert map name e.path

/-- `load_translators` (ffi_proxy.rs 183-269): filter the enumerated
entries down to candidates, then run the per-library loop over them,
starting from the empty map. -/
def load_translators (entries : List FileEntry) : Except String (List (String × String)) :=
  (candidates entries).foldlM loadStep []

/-- The pure effect of one loop iteration (what `loadStep` always reduces
to, since every failure is caught by a `continue`). -/
def processEntry (map : List (String × String)) (e : FileEntry) : List (String × String) :=
  if e.openOk then
    if e.symbolOk then
      match e.nameResult with
      | none => map
      | some name => mapInsert map name e.path
    else map
  else map

/-- An entry that contributes a (name, path) pair to the registry: a
candidate that opens, resolves the symbol, and reports a non-null name. -/
def validEntry (e : FileEntry) : Bool :=
  e.isFile && e.extOk && e.pathUtf8 && e.openOk && e.symbolOk && e.nameResult.isSome

/-- The (name, path) pairs contributed by a directory enumeration, in
enumeration order. -/
def namesPaths (entries : List FileEntry) : List (String × String) :=
  (candidates entries).filterMap (fun e =>
    if e.openOk && e.symbolOk then e.nameResult.map (fun n => (n, e.path)) else none)

/-- The names reported by the valid entries, in enumeration order (with
repetitions for collisions). -/
def reportedNames (entries : List FileEntry) : List String :=
  (namesPaths entries).map (fun p => p.1)

/-- The value attached to the last pair with the given key. -/
def lastValue (ps : List (String × String)) (n : String) : Option String :=
  match ps with
  | [] => none
  | (k, v) :: rest =>
    match lastValue rest n with
    | some w => some w
    | none => if k == n then some v else none

/-- The path of the most recently enumerated valid entry reporting `n`. -/
def lastPathFor (entries : List FileEntry) (n : String) : Option String :=
  lastValue (namesPaths entries) n

/-! ## The generated streaming relay (src/macros/src/lib.rs 284-364)

`call_translate_stream` creates `channel::<TranslateStreamChunk>(256)`,
spawns a relay task that invokes the callback once per received chunk, and
drives the backend's `translate_stream` to completion; it awaits the relay
(`handle.await`) before signalling success. The producer/relay pair is
modelled as a transition system over the channel's FIFO queue:
`pending` is what the producer has yet to send, `queue` the channel's
buffer, `delivered` the chunks already handed to the callback, in order of
invocation. A `send` requires buffer room (the bounded channel blocks the
producer otherwise); a `recv` delivers the oldest buffered chunk. The call
returns success exactly when the producer has run to completion
(`pending = []`) and the relay has drained the closed channel
(`queue = []`). -/

/-- Channel/relay state for one `call_translate_stream` invocation. -/
structure StreamState where
  pending : List TranslateStreamChunk
  queue : List TranslateStreamChunk
  delivered : List TranslateStreamChunk
deriving DecidableEq, Repr

/-- One scheduler step of the producer (`tx.send`) or the relay
(`rx.recv` followed by `callback_wrapper(chunk.into_ffi(), cb)`). -/
inductive StreamStep (cap : Nat) : StreamState → StreamState → Prop
  | send (c : TranslateStreamChunk) (p q d : List TranslateStreamChunk)
      (h : q.length < cap) :
      StreamStep cap ⟨c :: p, q, d⟩ ⟨p, q ++ [c], d⟩
  | recv (c : TranslateStreamChunk) (p q d : List TranslateStreamChunk) :
      StreamStep cap ⟨p, c :: q, d⟩ ⟨p, q, d ++ [c]⟩

/-- The success-return condition of `call_translate_stream`: the backend's
producer finished (all chunks sent) and `handle.await` saw the relay drain
the closed channel. -/
def callReturnsOk (s : StreamState) : Prop :=
  s.pending = [] ∧ s.queue = []

/-! ## Default adapters (src/lib/src/utils.rs 37-75) -/

/-- The chunk-content selector inside `stream2normal`'s receive loop:
only `Delta` chunks with a present `content` contribute. -/
def deltaContent (c : TranslateStreamChunk) : Option String :=
  match c with
  | .Delta r => r.content
  | _ => none

/-- `stream2normal` (utils.rs 37-59): create a channel of capacity 64,
drive `translate_stream` to completion, then drain the channel and join
the `Delta` contents. The backend is abstracted by the chunk list it
emits (`emitted`) and its final result (`res`). Because the receive loop
only starts after `translate_stream` has returned, a backend emitting more
than 64 chunks blocks forever on the bounded channel; that divergence is
the `none` result. -/
def stream2normal (emitted : List TranslateStreamChunk) (res : Except String Unit) :
    Option (Except String TranslateResult) :=
  if emitted.length ≤ 64 then
    some (match res with
      | .error e => .error e
      | .ok _ => .ok { reasoning := none,
                       content := some (String.join (emitted.filterMap deltaContent)) })
  else none

/-- `normal2stream` (utils.rs 61-75): send `Start`, run the one-shot
`translate`, then send `Delta(result)` and `End`. The sink is abstracted
as the list of chunks sent to it, in order; a failing `translate` leaves
only the already-sent `Start` behind and propagates the error. -/
def normal2stream (tr : Except String TranslateResult) :
    List TranslateStreamChunk × Except String Unit :=
  match tr with
  | .error e => ([.Start], .error e)
  | .ok r => ([.Start, .Delta r, .End], .ok ())

/-- The chunk sequence of the spec's `"echo"` stub backend for a task with
content `"Hello"`. -/
def echoChunks : List TranslateStreamChunk :=
  [.Start, .Delta { reasoning := none, content := some "He" },
   .Delta { reasoning := none, content := some "llo" }, .End]

/-! ## Text interchange of `TranslateTask` (src/lib/src/lib.rs 13-44)

The task is serialized with `serde_json::to_string` and read back with
`serde_json::from_str`. The text layer (printing/parsing of a JSON
document) is the external `serde_json` library and round-trips a JSON
tree exactly; the repository's own contribution — the derived field
mapping of `TranslatedItem`/`TranslateTask` — is embedded below on a JSON
tree type. -/

/-- A JSON document tree (`serde_json::Value`). Numbers are carried
opaquely (none of the task's own fields is numeric; numbers can only
occur inside the open-ended `extra` value, where they are passed through
untouched). -/
inductive JsonValue where
  | null
  | bool (b : Bool)
  | num (n : Int)
  | str (s : String)
  | arr (elems : List JsonValue)
  | obj (fields : List (String × JsonValue))

/-- A character allowed in the plain language-tag syntax (subtags of
letters and digits joined by hyphens). -/
def isTagChar (c : Char) : Bool :=
  c.isAlphanum || c = '-'

/-- Well-formedness of language-tag text; the full BCP 47 grammar enforced
by the external `language_tags` crate is abstracted to this decidable
check — all that the round-trip uses is that parsing validates and stores
the text and that rendering returns the stored text. -/
def wfLanguageTag (s : String) : Bool :=
  !s.isEmpty && s.data.all isTagChar

/-- A parsed language tag (`language_tags::LanguageTag`): validated text. -/
structure LanguageTag where
  tag : String
  wf : wfLanguageTag tag = true

/-- Rendering a tag back to text (`Display`, used by `Serialize`). -/
def LanguageTag.render (t : LanguageTag) : String :=
  t.tag

/-- Parsing language-tag text (`FromStr`, used by `Deserialize`). -/
def LanguageTag.parse (s : String) : Option LanguageTag :=
  if h : wfLanguageTag s = true then some { tag := s, wf := h } else none

/-- `TranslatedItem` (lib.rs 13-19). -/
structure TranslatedItem where
  source : String
  target : String

/-- `TranslateTask` (lib.rs 21-44). -/
structure TranslateTask where
  id : String
  content : String
  source_language : Option LanguageTag
  target_language : Option LanguageTag
  user_prompt : Option String
  system_prompt : Option String
  field : Option String
  terms : List TranslatedItem
  references : List TranslatedItem
  extra : Option JsonValue

/-- Derived `Serialize` of `TranslatedItem`. -/
def TranslatedItem.toJson (it : TranslatedItem) : JsonValue :=
  .obj [("source", .str it.source), ("target", .str it.target)]

/-- Serde's `Option<String>`: `None` is `null`, `Some` the bare string. -/
def encodeOptStr (o : Option String) : JsonValue :=
  match o with
  | none => .null
  | some s => .str s

/-- Serde's `Option<LanguageTag>`: `None` is `null`, `Some` the rendered
tag text. -/
def encodeOptTag (o : Option LanguageTag) : JsonValue :=
  match o with
  | none => .null
  | some t => .str t.render

/-- Serde's `Option<Value>`: `None` is `null`, `Some v` is `v` itself. -/
def encodeExtra (o : Option JsonValue) : JsonValue :=
  match o with
  | none => .null
  | some v => v

/-- Derived `Serialize` of `TranslateTask`: an object with the ten fields
in declaration order. -/
def TranslateTask.toJson (t : TranslateTask) : JsonValue :=
  .obj [("id", .str t.id),
        ("content", .str t.content),
        ("source_language", encodeOptTag t.source_language),
        ("target_language", encodeOptTag t.target_language),
        ("user_prompt", encodeOptStr t.user_prompt),
        ("system_prompt", encodeOptStr t.system_prompt),
        ("field", encodeOptStr t.field),
        ("terms", .arr (t.terms.map TranslatedItem.toJson)),
        ("references", .arr (t.references.map TranslatedItem.toJson)),
        ("extra", encodeExtra t.extra)]

/-- Field access in the struct deserializer: the value stored under a key
of the serialized object (serde reports a missing required field as an
error). -/
def getField (fs : List (String × JsonValue)) (k : String) : Except String JsonValue :=
  match fs with
  | [] => .error ("missing field " ++ k)
  | (k0, v) :: rest => if k0 == k then .ok v else getField rest k

/-- Deserializing a required string field. -/
def asStr (j : JsonValue) : Except String String :=
  match j with
  | .str s => .ok s
  | _ => .error "invalid type: expected a string"

/-- Deserializing `Option<String>`. -/
def decodeOptStr (j : JsonValue) : Except String (Option String) :=
  match j with
  | .null => .ok none
  | .str s => .ok (some s)
  | _ => .error "invalid type: expected a string or null"

/-- Deserializing `Option<LanguageTag>`: `null` is `None`; a string must
parse as a language tag. -/
def decodeOptTag (j : JsonValue) : Except String (Option LanguageTag) :=
  match j with
  | .null => .ok none
  | .str s =>
    match LanguageTag.parse s with
    | some t => .ok (some t)
    | none => .error "invalid language tag"
  | _ => .error "invalid type: expected a string or null"

/-- Deserializing `Option<Value>`: `null` reads back as `None`; anything
else as `Some` of itself. -/
def decodeExtra (j : JsonValue) : Option JsonValue :=
  match j with
  | .null => none
  | v => some v

/-- Derived `Deserialize` of `TranslatedItem`. -/
def TranslatedItem.fromJson (j : JsonValue) : Except String TranslatedItem :=
  match j with
  | .obj fs => do
    let sv ← getField fs "source"
    let s ← asStr sv
    let tv ← getField fs "target"
    let t ← asStr tv
    pure { source := s, target := t }
  | _ => .error "invalid type: expected an object"

/-- Deserializing a sequence of `TranslatedItem`s. -/
def decodeItemList (xs : List JsonValue) : Except String (List TranslatedItem) :=
  match xs with
  | [] => .ok []
  | x :: rest => do
    let it ← TranslatedItem.fromJson x
    let more ← decodeItemList rest
    pure (it :: more)

/-- Deserializing `Vec<TranslatedItem>`. -/
def decodeItems (j : JsonValue) : Except String (List TranslatedItem) :=
  match j with
  | .arr xs => decodeItemList xs
  | _ => .error "invalid type: expected an array"

/-- Derived `Deserialize` of `TranslateTask`: read every field of the
serialized object (all ten are required; the optional ones accept
`null`). -/
def TranslateTask.fromJson (j : JsonValue) : Except String TranslateTask :=
  match j with
  | .obj fs => do
    let idv ← getField fs "id"
    let id ← asStr idv
    let cv ← getField fs "content"
    let content ← asStr cv
    let slv ← getField fs "source_language"
    let sl ← decodeOptTag slv
    let tlv ← getField fs "target_language"
    let tl ← decodeOptTag tlv
    let upv ← getField fs "user_prompt"
    let up ← decodeOptStr upv
    let spv ← getField fs "system_prompt"
    let sp ← decodeOptStr spv
    let fv ← getField fs "field"
    let f ← decodeOptStr fv
    let tv ← getField fs "terms"
    let terms ← decodeItems tv
    let rv ← getField fs "references"
    let references ← decodeItems rv
    let ev ← getField fs "extra"
    pure { id := id, content := content, source_language := sl, target_language := tl,
           user_prompt := up, system_prompt := sp, field := f, terms := terms,
           references := references, extra := decodeExtra ev }
  | _ => .error "invalid type: expected an object"

/-- A concrete well-formed task whose `extra` field is `Some(Value::Null)`. -/
def taskWithNullExtra : TranslateTask :=
  { id := "t1", content := "Hello", source_language := none, target_language := none,
    user_prompt := none, system_prompt := none, field := none, terms := [],
    references := [], extra := some .null }


/-- A concrete directory enumeration: two valid plugins with distinct
names, a wrong-extension file, a corrupt library, and a later valid
library colliding on the name `beta`. -/
def demoDir : List FileEntry :=
  [{ path := "/plugins/a.so", isFile := true, extOk := true, pathUtf8 := true,
     openOk := true, symbolOk := true, nameResult := some "alpha" },
   { path := "/plugins/b.so", isFile := true, extOk := true, pathUtf8 := true,
     openOk := true, symbolOk := true, nameResult := some "beta" },
   { path := "/plugins/readme.txt", isFile := true, extOk := false, pathUtf8 := true,
     openOk := false, symbolOk := false, nameResult := none },
   { path := "/plugins/broken.so", isFile := true, extOk := true, pathUtf8 := true,
     openOk := false, symbolOk := false, nameResult := none },
   { path := "/plugins/beta2.so", isFile := true, extOk := true, pathUtf8 := true,
     openOk := true, symbolOk := true, nameResult := some "beta" }]

/-- The registry `load_translators` builds from `demoDir`. -/
def demoRegistry : List (String × String) :=
  [("alpha", "/plugins/a.so"), ("beta", "/plugins/beta2.so")]


/-- A concrete parsed language tag. -/
def sampleTag : LanguageTag :=
  { tag := "en-US", wf := by decide }

/-- A concrete well-formed task exercising every field, with an `extra`
value that is present but not `null`. -/
def sampleTask : TranslateTask :=
  { id := "t2", content := "Hello World", source_language := some sampleTag,
    target_language := none, user_prompt := some "translate politely",
    system_prompt := none, field := some "greetings",
    terms := [{ source := "Hello", target := "Bonjour" }],
    references := [{ source := "World", target := "Monde" }],
    extra := some (.str "x") }

/-! # Theorems -/

/-! ## Substring helper lemmas -/

theorem leadsWith_self_append (n q : List Char) : leadsWith n (n ++ q) = true := by
  induction n with
  | nil => rfl
  | cons a as ih => simp [leadsWith, ih]

theorem occursIn_of_leadsWith {n h : List Char} (hl : leadsWith n h = true) :
    occursIn n h = true := by
  cases h with
  | nil => exact hl
  | cons b bs => simp [occursIn, hl]

theorem occursIn_sandwich (p n q : List Char) : occursIn n (p ++ (n ++ q)) = true := by
  induction p with
  | nil => exact occursIn_of_leadsWith (leadsWith_self_append n q)
  | cons b bs ih =>
    have hstep : occursIn n ((b :: bs) ++ (n ++ q)) =
        (leadsWith n ((b :: bs) ++ (n ++ q)) || occursIn n (bs ++ (n ++ q))) := rfl
    rw [hstep, ih, Bool.or_true]

theorem strContains_sandwich (pre m post : String) :
    strContains m (pre ++ (m ++ post)) = true := by
  show occursIn m.data ((pre ++ (m ++ post)).data) = true
  have : (pre ++ (m ++ post)).data = pre.data ++ (m.data ++ post.data) := rfl
  rw [this]
  exact occursIn_sandwich pre.data m.data post.data

/-! ## C9 — the envelope invariant -/

/-- C9: every result envelope the boundary builds has exactly one side
populated: a success envelope has a non-null payload and a null error, a
failure envelope has a null payload and a non-null error — never both and
never neither. -/
theorem ffi_result_exactly_one_side {T : Type} (r : Except String T) (e : FfiResult T)
    (h : resultIntoFfi r = some e) :
    ((∃ x, r = .ok x ∧ e.ptr = some x ∧ e.err = none) ∨
      (∃ m, r = .error m ∧ e.ptr = none ∧ e.err ≠ none)) ∧
    ¬(e.ptr ≠ none ∧ e.err ≠ none) ∧ ¬(e.ptr = none ∧ e.err = none) := by
  cases r with
  | ok x =>
    simp only [resultIntoFfi, Option.some.injEq] at h
    subst h
    simp
  | error m =>
    simp only [resultIntoFfi] at h
    cases hc : cstringNew m with
    | none =>
      rw [hc] at h
      exact Option.noConfusion h
    | some s =>
      rw [hc] at h
      have h2 : ({ ptr := none, err := some s } : FfiResult T) = e := Option.some.inj h
      subst h2
      simp

/-- Witness for C9 at a concrete success value and its envelope. -/
theorem ffi_result_exactly_one_side_witness :
    resultIntoFfi (Except.ok (5 : Int)) =
      some { ptr := some 5, err := none } ∧
    (((∃ x, (Except.ok (5 : Int) : Except String Int) = .ok x ∧
        ({ ptr := some (5 : Int), err := none } : FfiResult Int).ptr = some x ∧
        ({ ptr := some (5 : Int), err := none } : FfiResult Int).err = none) ∨
      (∃ m, (Except.ok (5 : Int) : Except String Int) = .error m ∧
        ({ ptr := some (5 : Int), err := none } : FfiResult Int).ptr = none ∧
        ({ ptr := some (5 : Int), err := none } : FfiResult Int).err ≠ none)) ∧
    ¬(({ ptr := some (5 : Int), err := none } : FfiResult Int).ptr ≠ none ∧
        ({ ptr := some (5 : Int), err := none } : FfiResult Int).err ≠ none) ∧
    ¬(({ ptr := some (5 : Int), err := none } : FfiResult Int).ptr = none ∧
        ({ ptr := some (5 : Int), err := none } : FfiResult Int).err = none)) :=
  ⟨rfl, ffi_result_exactly_one_side (T := Int) (Except.ok 5)
    { ptr := some 5, err := none } rfl⟩

/-! ## C2 — envelope wrap/unwrap round trip -/

/-- C2 counterexample: for the error message `a"b`, wrapping then
unwrapping surfaces `result's error: "a\"b"` — the message is
Debug-escaped, and the surfaced text does not contain `a"b` itself. -/
theorem envelope_roundtrip_cex :
    unwrap_handle_result (toPtr (Except.error "a\x22b" : Except String Int)) =
      .error "result\x27s error: \x22a\\\x22b\x22" ∧
    strContains "a\x22b" "result\x27s error: \x22a\\\x22b\x22" = false := by
  exact ⟨rfl, rfl⟩

/-- C2 (amended): wrapping a success `x` in an envelope and unwrapping
yields `x`; wrapping an error message `m` that survives `CString::new`
(no interior NUL) and that the model certifies Debug escaping leaves
unchanged (`escapeDebug m = m`, i.e. printable ASCII with no backslash or
double quote — characters Rust is guaranteed to print unchanged) yields a
failure whose surfaced message contains `m`. (In general the surfaced
message contains the Debug-escaped form of `m`, as the counterexample
shows.) -/
theorem envelope_roundtrip (T : Type) :
    (∀ x : T, unwrap_handle_result (toPtr (Except.ok x : Except String T)) = .ok x) ∧
    (∀ m : String, cstringNew m = some m → escapeDebug m = m →
      unwrap_handle_result (toPtr (Except.error m : Except String T)) =
        .error ("result\x27s error: " ++ debugQuote m) ∧
      strContains m ("result\x27s error: " ++ debugQuote m) = true) := by
  constructor
  · intro x
    rfl
  · intro m hnul hesc
    constructor
    · show unwrap_handle_result (resultIntoFfi (Except.error m : Except String T)) = _
      simp only [resultIntoFfi, hnul, Option.map_some']
      rfl
    · have hq : "result\x27s error: " ++ debugQuote m =
          "result\x27s error: \x22" ++ (m ++ "\x22") := by
        simp only [debugQuote, hesc]
        rfl
      rw [hq]
      exact strContains_sandwich "result\x27s error: \x22" m "\x22"

/-- Witness for C2 at a success value `7` and the plain message `boom`. -/
theorem envelope_roundtrip_witness :
    (unwrap_handle_result (toPtr (Except.ok (7 : Int) : Except String Int)) = .ok 7) ∧
    cstringNew "boom" = some "boom" ∧ escapeDebug "boom" = "boom" ∧
    (unwrap_handle_result (toPtr (Except.error "boom" : Except String Int)) =
        .error ("result\x27s error: " ++ debugQuote "boom") ∧
      strContains "boom" ("result\x27s error: " ++ debugQuote "boom") = true) :=
  ⟨(envelope_roundtrip Int).1 7, rfl, rfl,
    (envelope_roundtrip Int).2 "boom" rfl rfl⟩

/-! ## C6 — one-shot adapter over the echo stream -/

/-- C6: for a backend whose `translate_stream` emits
`Start, Delta{content:"He"}, Delta{content:"llo"}, End` and succeeds, the
one-shot adapter `stream2normal` returns exactly
`TranslateResult{reasoning: None, content: Some("Hello")}`. -/
theorem stream2normal_echo :
    stream2normal echoChunks (.ok ()) =
      some (.ok { reasoning := none, content := some "Hello" }) := by
  rfl

/-! ## C7 — stream adapter over a one-shot result -/

/-- C7: for a backend whose one-shot `translate` returns
`TranslateResult{reasoning: Some("because"), content: Some("Bonjour")}`,
the stream adapter `normal2stream` emits onto the sink exactly the three
chunks `Start`, `Delta` of that result, `End`, in that order, and nothing
else, and succeeds. -/
theorem normal2stream_three_chunks :
    normal2stream (.ok { reasoning := some "because", content := some "Bonjour" }) =
      ([.Start, .Delta { reasoning := some "because", content := some "Bonjour" }, .End],
        .ok ()) := by
  rfl

/-! ## C10 — the proxy's forwarder drops undecodable chunks -/

/-- C10: in the proxy's streaming translate, a wire chunk that fails to
decode is silently discarded by the callback forwarder: it is not
forwarded to the caller's channel, and removing it from the callback
sequence leaves both the forwarded chunks and the call's result
unchanged — the result depends only on the returned envelope. -/
theorem proxy_stream_drops_undecodable (xs ys : List (Option TranslateStreamChunkFFI))
    (bad : Option TranslateStreamChunkFFI) (ret : Option (FfiResult Int)) (e : String)
    (h : TranslateStreamChunk.from_ffi bad = .error e) :
    ProxyTranslator.translate_stream (xs ++ bad :: ys) ret =
      ProxyTranslator.translate_stream (xs ++ ys) ret ∧
    proxy_forward_chunk bad = none := by
  have hdrop : proxy_forward_chunk bad = none := by
    simp [proxy_forward_chunk, h]
  refine ⟨?_, hdrop⟩
  simp [ProxyTranslator.translate_stream, List.filterMap_append, List.filterMap_cons, hdrop]

/-- Witness for C10: a null chunk pointer between two decodable chunks is
dropped. -/
theorem proxy_stream_drops_undecodable_witness :
    ProxyTranslator.translate_stream
        [some { tag := .Start, delta := none }, none, some { tag := .End, delta := none }]
        (some { ptr := some 0, err := none }) =
      ProxyTranslator.translate_stream
        [some { tag := .Start, delta := none }, some { tag := .End, delta := none }]
        (some { ptr := some 0, err := none }) ∧
    proxy_forward_chunk none = none :=
  proxy_stream_drops_undecodable
    [some { tag := .Start, delta := none }] [some { tag := .End, delta := none }]
    none (some { ptr := some 0, err := none }) "null pointer received from ffi" rfl

/-! ## C1 — the language-support sentinel convention -/

theorem toPtr_ok {T : Type} (x : T) :
    toPtr (Except.ok x : Except String T) = some { ptr := some x, err := none } := rfl

theorem toPtr_error_ptr_none {T : Type} (m : String) (e : FfiResult T)
    (h : toPtr (Except.error m : Except String T) = some e) : e.ptr = none := by
  simp only [toPtr, resultIntoFfi] at h
  cases hc : cstringNew m with
  | none => rw [hc] at h; exact Option.noConfusion h
  | some s =>
    rw [hc] at h
    have h2 : ({ ptr := none, err := some s } : FfiResult T) = e := Option.some.inj h
    rw [← h2]

/-- C1 counterexample: an envelope carrying the sentinel `2` (neither `0`
nor `1`) makes the proxy's `is_supported_input_language` return
`Ok(false)` — it is treated as "not supported", not as a query error,
because the proxy computes `Ok(*b == 0i8)`. -/
theorem is_supported_sentinel_cex :
    ProxyTranslator.is_supported_input_language true "en"
        (fun _ => some { ptr := some 2, err := none }) = .ok false ∧
    ∀ e, ProxyTranslator.is_supported_input_language true "en"
        (fun _ => some { ptr := some 2, err := none }) ≠ .error e := by
  refine ⟨rfl, fun e h => ?_⟩
  rw [show ProxyTranslator.is_supported_input_language true "en"
      (fun _ => some { ptr := some 2, err := none }) = Except.ok false from rfl] at h
  exact Except.noConfusion h

/-- Reduction of the proxy call once the symbol resolves and the language
marshals: the result is the sentinel comparison over the unwrapped
envelope. -/
theorem proxy_call_eq (lang l : String) (boundary : String → Option (FfiResult Int))
    (hl : cstringNew lang = some l) :
    ProxyTranslator.is_supported_input_language true lang boundary =
      match unwrap_handle_result (boundary l) with
      | .error e => .error e
      | .ok b => .ok (b == 0) := by
  cases hu : unwrap_handle_result (boundary l) with
  | error e => simp [ProxyTranslator.is_supported_input_language, hl, hu]
  | ok b => simp [ProxyTranslator.is_supported_input_language, hl, hu]

/-- C1 (amended): the proxy returns "supported" (`Ok(true)`) if and only
if the envelope returned by the boundary call is a success envelope
carrying the sentinel `0`; a success envelope carrying any sentinel `s`
yields `Ok(s == 0)` — so `1`, and every other nonzero sentinel, yields
"not supported", and a query error arises only from a null/error/empty
envelope. In envelopes produced by the generated boundary entry point the
success sentinel is always `0` or `1`, so other values never arise in
this system. -/
theorem is_supported_iff_sentinel_zero (lang l : String)
    (boundary : String → Option (FfiResult Int))
    (hl : cstringNew lang = some l) :
    (ProxyTranslator.is_supported_input_language true lang boundary = .ok true ↔
      boundary l = some { ptr := some 0, err := none }) ∧
    (∀ s : Int, boundary l = some { ptr := some s, err := none } →
      ProxyTranslator.is_supported_input_language true lang boundary = .ok (s == 0)) ∧
    (∀ (glang : Option String) (u tn : Bool) (backend : String → Except String Bool)
        (env : FfiResult Int) (s : Int),
      Generated.is_supported_input_language glang u tn backend = some env →
      env.ptr = some s → s = 0 ∨ s = 1) := by
  refine ⟨?_, ?_, ?_⟩
  · rw [proxy_call_eq lang l boundary hl]
    cases hb : boundary l with
    | none => simp [unwrap_handle_result]
    | some r =>
      obtain ⟨p, err⟩ := r
      cases err with
      | some e => simp [unwrap_handle_result]
      | none =>
        cases p with
        | none => simp [unwrap_handle_result]
        | some b => simp [unwrap_handle_result]
  · intro s hb
    rw [proxy_call_eq lang l boundary hl, hb]
    rfl
  · intro glang u tn backend env s henv hptr
    have hcontra : ∀ m : String, toPtr (Except.error m : Except String Int) = some env →
        s = 0 ∨ s = 1 := by
      intro m hm
      have hnone := toPtr_error_ptr_none m env hm
      rw [hnone] at hptr
      exact Option.noConfusion hptr
    cases glang with
    | none => exact hcontra _ henv
    | some l2 =>
      simp only [Generated.is_supported_input_language] at henv
      cases u with
      | false => exact hcontra _ (by simpa using henv)
      | true =>
        simp only [Bool.not_true, Bool.false_eq_true, if_false] at henv
        cases tn with
        | true => exact hcontra _ (by simpa using henv)
        | false =>
          simp only [Bool.false_eq_true, if_false] at henv
          cases hbk : backend l2 with
          | ok b =>
            rw [hbk] at henv
            cases b with
            | true =>
              rw [toPtr_ok] at henv
              have h2 := Option.some.inj henv
              rw [← h2] at hptr
              exact Or.inl (Option.some.inj hptr).symm
            | false =>
              rw [toPtr_ok] at henv
              have h2 := Option.some.inj henv
              rw [← h2] at hptr
              exact Or.inr (Option.some.inj hptr).symm
          | error e =>
            rw [hbk] at henv
            exact hcontra _ henv

/-- Witness for C1 at language `en` and a boundary returning sentinel 0. -/
theorem is_supported_iff_sentinel_zero_witness :
    cstringNew "en" = some "en" ∧
    (ProxyTranslator.is_supported_input_language true "en"
        (fun _ => some { ptr := some 0, err := none }) = .ok true ↔
      (fun _ : String => (some { ptr := some 0, err := none } : Option (FfiResult Int))) "en" =
        some { ptr := some 0, err := none }) :=
  ⟨rfl, (is_supported_iff_sentinel_zero "en" "en"
    (fun _ => some { ptr := some 0, err := none }) rfl).1⟩

/-! ## C3/C4 — plugin discovery -/

theorem loadStep_eq (map : List (String × String)) (e : FileEntry) :
    loadStep map e = .ok (processEntry map e) := by
  cases e with
  | mk path isFile extOk pathUtf8 openOk symbolOk nameResult =>
    cases openOk with
    | false => rfl
    | true =>
      cases symbolOk with
      | false => rfl
      | true =>
        cases nameResult with
        | none => rfl
        | some name => rfl

theorem foldlM_loadStep_eq (l : List FileEntry) :
    ∀ m0 : List (String × String), l.foldlM loadStep m0 = .ok (l.foldl processEntry m0) := by
  induction l with
  | nil => intro m0; rfl
  | cons e rest ih =>
    intro m0
    rw [List.foldlM_cons, loadStep_eq]
    show rest.foldlM loadStep (processEntry m0 e) = _
    rw [ih, List.foldl_cons]

theorem load_translators_eq_fold (entries : List FileEntry) :
    load_translators entries = .ok ((candidates entries).foldl processEntry []) :=
  foldlM_loadStep_eq (candidates entries) []

/-- `validEntry` splits into the candidate condition and the per-library
condition. -/
theorem validEntry_split (e : FileEntry) :
    validEntry e =
      ((e.isFile && e.extOk && e.pathUtf8) && (e.openOk && e.symbolOk && e.nameResult.isSome)) := by
  simp [validEntry, Bool.and_assoc]

theorem processEntry_of_invalid (m : List (String × String)) (e : FileEntry)
    (h : (e.openOk && e.symbolOk && e.nameResult.isSome) = false) :
    processEntry m e = m := by
  cases e with
  | mk path isFile extOk pathUtf8 openOk symbolOk nameResult =>
    cases openOk with
    | false => rfl
    | true =>
      cases symbolOk with
      | false => rfl
      | true =>
        cases nameResult with
        | none => rfl
        | some name => simp at h

theorem fold_candidates_eq_valid (entries : List FileEntry) :
    ∀ m0 : List (String × String),
      (candidates entries).foldl processEntry m0 =
        (entries.filter validEntry).foldl processEntry m0 := by
  induction entries with
  | nil => intro m0; rfl
  | cons e rest ih =>
    intro m0
    have hsplit := validEntry_split e
    by_cases hc : (e.isFile && e.extOk && e.pathUtf8) = true
    · by_cases hr : (e.openOk && e.symbolOk && e.nameResult.isSome) = true
      · have hv : validEntry e = true := by rw [hsplit, hc, hr]; rfl
        simp only [candidates, List.filter_cons, hc, if_true, hv]
        rw [List.foldl_cons, List.foldl_cons]
        exact ih (processEntry m0 e)
      · rw [Bool.not_eq_true] at hr
        have hv : validEntry e = false := by rw [hsplit, hr, Bool.and_false]
        simp only [candidates, List.filter_cons, hc, if_true, hv]
        rw [List.foldl_cons, processEntry_of_invalid m0 e hr]
        exact ih m0
    · rw [Bool.not_eq_true] at hc
      have hv : validEntry e = false := by rw [hsplit, hc, Bool.false_and]
      simp only [candidates, List.filter_cons, hc, hv]
      exact ih m0

theorem candidates_filter_valid (entries : List FileEntry) :
    candidates (entries.filter validEntry) = entries.filter validEntry := by
  apply List.filter_eq_self.mpr
  intro e he
  have hv : validEntry e = true := (List.mem_filter.mp he).2
  rw [validEntry_split] at hv
  exact (Bool.and_eq_true .. ▸ hv).1

/-- C4: discovery never fails as a whole: `load_translators` always
returns a mapping, every per-candidate failure (bad extension, open
failure, missing `get_plugin_name` symbol, null name pointer) only causes
that candidate to be omitted — the result over the full enumeration equals
the result over just the valid entries — and no error value is ever
surfaced to the caller. -/
theorem load_translators_never_fails (entries : List FileEntry) :
    load_translators entries = .ok ((candidates entries).foldl processEntry []) ∧
    load_translators entries = load_translators (entries.filter validEntry) ∧
    ∀ e : String, load_translators entries ≠ .error e := by
  refine ⟨load_translators_eq_fold entries, ?_, ?_⟩
  · rw [load_translators_eq_fold entries,
      load_translators_eq_fold (entries.filter validEntry),
      fold_candidates_eq_valid entries, candidates_filter_valid]
  · intro e h
    rw [load_translators_eq_fold entries] at h
    exact Except.noConfusion h

theorem mapLookup_insert (m : List (String × String)) (k v n : String) :
    mapLookup (mapInsert m k v) n = if k == n then some v else mapLookup m n := by
  induction m with
  | nil => rfl
  | cons p rest ih =>
    obtain ⟨k0, v0⟩ := p
    by_cases h0 : k0 = k <;> by_cases h1 : k = n <;>
      simp_all [mapInsert, mapLookup]

theorem mem_mapKeys_insert (m : List (String × String)) (k v n : String) :
    n ∈ mapKeys (mapInsert m k v) ↔ n ∈ mapKeys m ∨ n = k := by
  induction m with
  | nil => simp [mapInsert, mapKeys]
  | cons p rest ih =>
    obtain ⟨k0, v0⟩ := p
    by_cases h0 : k0 = k <;> simp_all [mapInsert, mapKeys]
    tauto

theorem nodup_mapKeys_insert (m : List (String × String)) (k v : String)
    (h : (mapKeys m).Nodup) : (mapKeys (mapInsert m k v)).Nodup := by
  induction m with
  | nil => simp [mapInsert, mapKeys]
  | cons p rest ih =>
    obtain ⟨k0, v0⟩ := p
    simp only [mapKeys, List.map_cons, List.nodup_cons] at h
    by_cases h0 : k0 = k
    · subst h0
      simp only [mapInsert, beq_self_eq_true, if_true, mapKeys, List.map_cons,
        List.nodup_cons]
      exact h
    · have h0b : (k0 == k) = false := by simp [h0]
      simp only [mapInsert, h0b, Bool.false_eq_true, if_false, mapKeys, List.map_cons,
        List.nodup_cons]
      constructor
      · intro hmem
        rcases (mem_mapKeys_insert rest k v k0).mp hmem with hin | heq
        · exact h.1 hin
        · exact h0 heq
      · exact ih h.2

theorem fold_pairs_lookup (ps : List (String × String)) :
    ∀ (m0 : List (String × String)) (n : String),
      mapLookup (ps.foldl (fun acc p => mapInsert acc p.1 p.2) m0) n =
        match lastValue ps n with
        | some w => some w
        | none => mapLookup m0 n := by
  induction ps with
  | nil => intro m0 n; rfl
  | cons p rest ih =>
    obtain ⟨k, v⟩ := p
    intro m0 n
    rw [List.foldl_cons]
    rw [ih (mapInsert m0 k v) n]
    show _ = (match (match lastValue rest n with
      | some w => some w
      | none => if k == n then some v else none : Option String) with
      | some w => some w
      | none => mapLookup m0 n)
    cases hl : lastValue rest n with
    | some w => rfl
    | none =>
      by_cases h1 : k = n
      · subst h1
        simp [mapLookup_insert]
      · have h1b : (k == n) = false := by simp [h1]
        simp [mapLookup_insert, h1b]

theorem fold_pairs_mem (ps : List (String × String)) :
    ∀ (m0 : List (String × String)) (n : String),
      n ∈ mapKeys (ps.foldl (fun acc p => mapInsert acc p.1 p.2) m0) ↔
        n ∈ mapKeys m0 ∨ n ∈ ps.map (fun p => p.1) := by
  induction ps with
  | nil => intro m0 n; simp
  | cons p rest ih =>
    obtain ⟨k, v⟩ := p
    intro m0 n
    rw [List.foldl_cons]
    rw [ih (mapInsert m0 k v) n]
    rw [mem_mapKeys_insert]
    simp only [List.map_cons, List.mem_cons]
    tauto

theorem fold_pairs_nodup (ps : List (String × String)) :
    ∀ m0 : List (String × String), (mapKeys m0).Nodup →
      (mapKeys (ps.foldl (fun acc p => mapInsert acc p.1 p.2) m0)).Nodup := by
  induction ps with
  | nil => intro m0 h; exact h
  | cons p rest ih =>
    intro m0 h
    rw [List.foldl_cons]
    exact ih (mapInsert m0 p.1 p.2) (nodup_mapKeys_insert m0 p.1 p.2 h)

theorem fold_process_eq_pairs (l : List FileEntry) :
    ∀ m0 : List (String × String),
      l.foldl processEntry m0 =
        ((l.filterMap (fun e =>
            if e.openOk && e.symbolOk then e.nameResult.map (fun n => (n, e.path))
            else none)).foldl (fun acc p => mapInsert acc p.1 p.2) m0) := by
  induction l with
  | nil => intro m0; rfl
  | cons e rest ih =>
    intro m0
    cases e with
    | mk path isFile extOk pathUtf8 openOk symbolOk nameResult =>
      cases openOk with
      | false =>
        rw [List.foldl_cons]
        show rest.foldl processEntry m0 = _
        rw [ih m0]
        rfl
      | true =>
        cases symbolOk with
        | false =>
          rw [List.foldl_cons]
          show rest.foldl processEntry m0 = _
          rw [ih m0]
          rfl
        | true =>
          cases nameResult with
          | none =>
            rw [List.foldl_cons]
            show rest.foldl processEntry m0 = _
            rw [ih m0]
            rfl
          | some name =>
            rw [List.foldl_cons]
            show rest.foldl processEntry (mapInsert m0 name path) = _
            rw [ih (mapInsert m0 name path)]
            rfl

theorem load_translators_pairs (entries : List FileEntry) :
    load_translators entries =
      .ok ((namesPaths entries).foldl (fun acc p => mapInsert acc p.1 p.2) []) := by
  rw [load_translators_eq_fold entries, fold_process_eq_pairs (candidates entries) []]
  rfl

/-- C3: the registry returned by discovery contains exactly the distinct
names reported by the valid library files — `N` unique names when the
valid files report `N` distinct names and the `M` other files are invalid
(wrong extension, open failure, missing symbol, null name) or collide
with an earlier entry — and a name reported by several files maps to the
path of the most recently enumerated one (later insertions overwrite
earlier ones). -/
theorem load_translators_registry (entries : List FileEntry) (m : List (String × String))
    (goodNames : List String) (N : Nat)
    (hm : load_translators entries = .ok m)
    (hgood : (reportedNames entries).dedup = goodNames)
    (hN : goodNames.length = N) :
    m.length = N ∧ (mapKeys m).Nodup ∧
    (∀ n, n ∈ mapKeys m ↔ n ∈ reportedNames entries) ∧
    (∀ n, mapLookup m n = lastPathFor entries n) := by
  rw [load_translators_pairs entries] at hm
  have hmv : m = (namesPaths entries).foldl (fun acc p => mapInsert acc p.1 p.2) [] :=
    (Except.ok.inj hm).symm
  subst hmv
  have hnodup : (mapKeys ((namesPaths entries).foldl
      (fun acc p => mapInsert acc p.1 p.2) [])).Nodup :=
    fold_pairs_nodup (namesPaths entries) [] (by simp [mapKeys])
  have hmem : ∀ n, n ∈ mapKeys ((namesPaths entries).foldl
      (fun acc p => mapInsert acc p.1 p.2) []) ↔ n ∈ reportedNames entries := by
    intro n
    rw [fold_pairs_mem (namesPaths entries) [] n]
    simp [mapKeys, reportedNames]
  refine ⟨?_, hnodup, hmem, ?_⟩
  · have hglen : goodNames.Nodup := hgood ▸ (reportedNames entries).nodup_dedup
    have hgmem : ∀ n, n ∈ goodNames ↔ n ∈ reportedNames entries := by
      intro n
      rw [← hgood]
      exact List.mem_dedup
    have hperm := (List.perm_ext_iff_of_nodup hnodup hglen).mpr
      (fun n => (hmem n).trans (hgmem n).symm)
    have hlen := List.Perm.length_eq hperm
    rw [← hN]
    calc ((namesPaths entries).foldl (fun acc p => mapInsert acc p.1 p.2) []).length
        = (mapKeys ((namesPaths entries).foldl
            (fun acc p => mapInsert acc p.1 p.2) [])).length := by
          simp [mapKeys]
      _ = goodNames.length := hlen
  · intro n
    rw [fold_pairs_lookup (namesPaths entries) [] n]
    show _ = lastValue (namesPaths entries) n
    cases lastValue (namesPaths entries) n with
    | some w => rfl
    | none => rfl

/-- Witness for C3 on `demoDir`: 2 valid distinct names out of 5 files,
with the collision resolved to the most recently enumerated path. -/
theorem load_translators_registry_witness :
    load_translators demoDir = .ok demoRegistry ∧
    (reportedNames demoDir).dedup = ["alpha", "beta"] ∧
    (["alpha", "beta"] : List String).length = 2 ∧
    (demoRegistry.length = 2 ∧ (mapKeys demoRegistry).Nodup ∧
      (∀ n, n ∈ mapKeys demoRegistry ↔ n ∈ reportedNames demoDir) ∧
      (∀ n, mapLookup demoRegistry n = lastPathFor demoDir n)) :=
  ⟨rfl, by decide, rfl,
    load_translators_registry demoDir demoRegistry ["alpha", "beta"] 2
      rfl (by decide) rfl⟩

/-! ## C5 — exactly-once in-order delivery of the streaming relay -/

theorem streamStep_invariant {cap : Nat} {s s' : StreamState} (h : StreamStep cap s s') :
    s'.delivered ++ s'.queue ++ s'.pending = s.delivered ++ s.queue ++ s.pending := by
  cases h with
  | send c p q d hcap => simp
  | recv c p q d => simp

theorem streamSteps_invariant {cap : Nat} {s s' : StreamState}
    (h : Relation.ReflTransGen (StreamStep cap) s s') :
    s'.delivered ++ s'.queue ++ s'.pending = s.delivered ++ s.queue ++ s.pending := by
  induction h with
  | refl => rfl
  | tail hab hbc ih =>
    rw [streamStep_invariant hbc]
    exact ih

/-- C5: in one `call_translate_stream` invocation, whatever fair
interleaving of producer sends and relay receives is scheduled, when the
call signals success (producer finished and the relay drained the closed
channel before `handle.await` returned) the callback has been invoked
exactly once per chunk the producer enqueued, in exactly the order the
producer emitted them — in particular a stream emitted as
`Start, Delta*, End` is delivered as `Start, Delta*, End` — and no chunk
is dropped or delivered after success is signalled. -/
theorem call_translate_stream_delivery (emitted : List TranslateStreamChunk)
    (s : StreamState)
    (h : Relation.ReflTransGen (StreamStep 256) ⟨emitted, [], []⟩ s)
    (hok : callReturnsOk s) :
    s.delivered = emitted := by
  have hinv := streamSteps_invariant h
  obtain ⟨hp, hq⟩ := hok
  rw [hp, hq] at hinv
  simpa using hinv

/-- Witness for C5: a concrete two-chunk run through the capacity-256
channel, scheduled as send, send, receive, receive. -/
theorem call_translate_stream_delivery_witness :
    (⟨[], [], [.Start, .End]⟩ : StreamState).delivered =
      [TranslateStreamChunk.Start, TranslateStreamChunk.End] :=
  call_translate_stream_delivery [.Start, .End] ⟨[], [], [.Start, .End]⟩
    (Relation.ReflTransGen.head (StreamStep.send .Start [.End] [] [] (by decide))
      (Relation.ReflTransGen.head (StreamStep.send .End [] [.Start] [] (by decide))
        (Relation.ReflTransGen.head (StreamStep.recv .Start [] [.End] [])
          (Relation.ReflTransGen.head (StreamStep.recv .End [] [] [.Start])
            Relation.ReflTransGen.refl))))
    ⟨rfl, rfl⟩

/-! ## C8 — TranslateTask serialize/deserialize round trip -/

theorem parse_render (t : LanguageTag) : LanguageTag.parse t.render = some t := by
  obtain ⟨s, h⟩ := t
  simp [LanguageTag.parse, LanguageTag.render, h]

theorem decodeOptTag_encode (o : Option LanguageTag) :
    decodeOptTag (encodeOptTag o) = .ok o := by
  cases o with
  | none => rfl
  | some t => simp [encodeOptTag, decodeOptTag, parse_render]

theorem decodeOptStr_encode (o : Option String) :
    decodeOptStr (encodeOptStr o) = .ok o := by
  cases o with
  | none => rfl
  | some s => rfl

theorem item_fromJson_toJson (it : TranslatedItem) :
    TranslatedItem.fromJson (TranslatedItem.toJson it) = .ok it := by
  rfl

theorem decodeItemList_encode (l : List TranslatedItem) :
    decodeItemList (l.map TranslatedItem.toJson) = .ok l := by
  induction l with
  | nil => rfl
  | cons it rest ih =>
    rw [List.map_cons]
    show (do
      let a ← TranslatedItem.fromJson (TranslatedItem.toJson it)
      let more ← decodeItemList (rest.map TranslatedItem.toJson)
      pure (a :: more)) = _
    rw [item_fromJson_toJson, ih]
    rfl

theorem decodeExtra_encode (o : Option JsonValue) (h : o ≠ some .null) :
    decodeExtra (encodeExtra o) = o := by
  cases o with
  | none => rfl
  | some v =>
    cases v with
    | null => exact absurd rfl h
    | bool b => rfl
    | num n => rfl
    | str s => rfl
    | arr xs => rfl
    | obj fs => rfl

/-- C8 counterexample: the task whose `extra` is `Some(Value::Null)`
serializes `extra` to `null`, which deserializes back to `None` — the
round trip does not return the original task. -/
theorem task_roundtrip_cex :
    TranslateTask.fromJson (TranslateTask.toJson taskWithNullExtra) ≠
      .ok taskWithNullExtra := by
  intro heq
  have h1 : TranslateTask.fromJson (TranslateTask.toJson taskWithNullExtra) =
      .ok { taskWithNullExtra with extra := none } := rfl
  have h3 := h1.symm.trans heq
  have h4 : ({ taskWithNullExtra with extra := none } : TranslateTask) =
      taskWithNullExtra := Except.ok.inj h3
  have h5 := congrArg TranslateTask.extra h4
  exact Option.noConfusion h5

/-- C8 (amended): for every well-formed task whose `extra` field is not
`Some(Value::Null)`, serializing to the interchange document and
deserializing back yields a task equal to the original in every field;
with `extra = Some(Value::Null)` the round trip returns the task with
`extra = None` instead. -/
theorem except_bind_ok {α β : Type} (a : α) (f : α → Except String β) :
    (Except.ok a : Except String α) >>= f = f a := rfl

theorem task_roundtrip (t : TranslateTask) (h : t.extra ≠ some .null) :
    TranslateTask.fromJson (TranslateTask.toJson t) = .ok t := by
  obtain ⟨id, content, sl, tl, up, sp, f, terms, refs, extra⟩ := t
  simp only [TranslateTask.toJson, TranslateTask.fromJson]
  simp only [getField, asStr, decodeItems]
  simp [decodeOptTag_encode, decodeOptStr_encode, decodeItemList_encode,
    decodeExtra_encode extra h, except_bind_ok]

/-- Witness for C8 on `sampleTask`, whose `extra` is present and not
`null`. -/
theorem task_roundtrip_witness :
    sampleTask.extra ≠ some .null ∧
    TranslateTask.fromJson (TranslateTask.toJson sampleTask) = .ok sampleTask :=
  ⟨fun hx => JsonValue.noConfusion (Option.some.inj hx),
    task_roundtrip sampleTask (fun hx => JsonValue.noConfusion (Option.some.inj hx))⟩
